import Mathlib

/-!
Verification of the RPC control plane of the xelis-blockchain daemon
(src/xelis_daemon/src/rpc/mod.rs): JSON-RPC request parsing and dispatch,
the websocket subscriber registry with event broadcast, and the getwork
mining admission gateway.

The Rust code is shallowly embedded: JSON values are an inductive type,
the two HashMaps (method registry and client registry) are association
lists with HashMap-style insert/remove/lookup (keys unique, insertion
replaces in place), async mutation becomes explicit state passing, and
Result becomes Except.
-/

set_option autoImplicit false

namespace XelisRpc

/-- Shallow embedding of serde_json Value. -/
inductive Json where
  | null : Json
  | bool : Bool → Json
  | num : Int → Json
  | str : String → Json
  | arr : List Json → Json
  | obj : List (String × Json) → Json

/-- Connection identity: opaque, comparable, hashable token
(Addr of WebSocketHandler in the source). -/
abbrev Conn := Nat

/-- Event kind (NotifyEvent in xelis_common): opaque comparable token. -/
abbrev NotifyEvent := String

/-- Association-list lookup, mirroring HashMap get: first binding of the key. -/
def alistLookup {α β : Type} [DecidableEq α] : List (α × β) → α → Option β
  | [], _ => none
  | (k, v) :: rest, key => if k = key then some v else alistLookup rest key

/-- Association-list insert, mirroring HashMap insert on a map with unique
keys: replaces the binding in place if the key is present, appends otherwise. -/
def alistInsert {α β : Type} [DecidableEq α] : List (α × β) → α → β → List (α × β)
  | [], key, value => [(key, value)]
  | (k, v) :: rest, key, value =>
    if k = key then (key, value) :: rest else (k, v) :: alistInsert rest key value

/-- Association-list remove, mirroring HashMap remove on a map with unique
keys: drops the first binding of the key. -/
def alistRemove {α β : Type} [DecidableEq α] : List (α × β) → α → List (α × β)
  | [], _ => []
  | (k, v) :: rest, key =>
    if k = key then rest else (k, v) :: alistRemove rest key

/-- JSON_RPC_VERSION constant. -/
def JSON_RPC_VERSION : String := "2.0"

/-- RpcError enum from the source. Variants that wrap foreign error types
(serde, blockchain, reader, anyhow, mailbox) carry their display string. -/
inductive RpcError where
  | ParseBodyError : RpcError
  | InvalidRequest : RpcError
  | InvalidParams : String → RpcError
  | UnexpectedParams : RpcError
  | InvalidVersion : RpcError
  | MethodNotFound : String → RpcError
  | BlockchainError : String → RpcError
  | DeserializerError : String → RpcError
  | AnyError : String → RpcError
  | ExpectedNormalAddress : RpcError
  | NoP2p : RpcError
  | ClientNotRegistered : RpcError
  | WebSocketSendError : String → RpcError
deriving DecidableEq, Repr

/-- RpcError::get_code from the source: the JSON-RPC numeric error code. -/
def RpcError.get_code : RpcError → Int
  | .ParseBodyError => -32700
  | .InvalidRequest => -32600
  | .InvalidVersion => -32600
  | .MethodNotFound _ => -32601
  | .InvalidParams _ => -32602
  | .UnexpectedParams => -32602
  | _ => -32603

/-- The thiserror Display message of each RpcError variant
(apostrophes written as the escape \x27). -/
def RpcError.toMessage : RpcError → String
  | .ParseBodyError => "Invalid body in request"
  | .InvalidRequest => "Invalid request"
  | .InvalidParams m => "Invalid params: " ++ m
  | .UnexpectedParams => "Unexpected parameters for this method"
  | .InvalidVersion => "Expected json_rpc set to \x272.0\x27"
  | .MethodNotFound m => "Method \x27" ++ m ++ "\x27 in request was not found"
  | .BlockchainError m => m
  | .DeserializerError m => m
  | .AnyError m => m
  | .ExpectedNormalAddress => "Error, expected a normal wallet address"
  | .NoP2p => "Error, no P2p enabled"
  | .ClientNotRegistered => "WebSocket client is not registered"
  | .WebSocketSendError m => "Could not send message to address: " ++ m

/-- RpcResponseError from the source: an error paired with the best-effort
request id. -/
structure RpcResponseError where
  id : Option Nat
  error : RpcError
deriving DecidableEq, Repr

/-- RpcResponseError::get_id: the id as a JSON value, null when absent. -/
def RpcResponseError.get_id (e : RpcResponseError) : Json :=
  match e.id with
  | some i => .num i
  | none => .null

/-- RpcResponseError::to_json: the error Response Envelope. -/
def RpcResponseError.to_json (e : RpcResponseError) : Json :=
  .obj [("jsonrpc", .str JSON_RPC_VERSION),
        ("id", e.get_id),
        ("error", .obj [("code", .num e.error.get_code),
                        ("message", .str e.error.toMessage)])]

/-- RpcRequest from the source: the parsed Request Envelope. -/
structure RpcRequest where
  jsonrpc : String
  id : Option Nat
  method : String
  params : Option Json

/-- Method handler: (shared blockchain state abstracted away, params) to a
result value or an RpcError. -/
def Handler := Json → Except RpcError Json

/-- The server state touched by the claims: the method registry and the
websocket client registry (connection to its event-kind/id subscription map). -/
structure RpcServer where
  methods : List (String × Handler)
  clients : List (Conn × List (NotifyEvent × Option Nat))

/-- RpcServer::parse_request. The structural serde parse of the raw bytes is
external; it is abstracted as its outcome, an optional RpcRequest. A failed
structural parse yields ParseBodyError with a null id; a successful parse
whose jsonrpc field differs from the fixed version yields InvalidVersion
echoing the parsed id. -/
def parse_request (parsed : Option RpcRequest) : Except RpcResponseError RpcRequest :=
  match parsed with
  | none => .error ⟨none, .ParseBodyError⟩
  | some request =>
    if request.jsonrpc ≠ JSON_RPC_VERSION then
      .error ⟨request.id, .InvalidVersion⟩
    else
      .ok request

/-- Serialization of an Option usize id field: null when absent. -/
def optIdJson : Option Nat → Json
  | some i => .num i
  | none => .null

/-- RpcServer::execute_method: look the method up in the registry
(MethodNotFound on absence), run the handler on the params (defaulting to
null), and wrap the result or error in a Response Envelope. -/
def execute_method (s : RpcServer) (request : RpcRequest) : Except RpcResponseError Json :=
  match alistLookup s.methods request.method with
  | none => .error ⟨request.id, .MethodNotFound request.method⟩
  | some handler =>
    match handler (request.params.getD .null) with
    | .error err => .error ⟨request.id, err⟩
    | .ok result =>
      .ok (.obj [("jsonrpc", .str JSON_RPC_VERSION),
                 ("id", optIdJson request.id),
                 ("result", result)])

/-- The json_rpc endpoint: parse the body, then execute; the first error
short-circuits. -/
def json_rpc (s : RpcServer) (parsed : Option RpcRequest) : Except RpcResponseError Json :=
  match parse_request parsed with
  | .error e => .error e
  | .ok request => execute_method s request

/-- RpcServer::register_method: HashMap insert of the handler under the
name; when the insert returns a previous handler an error is logged and
startup continues. Returns the new state and whether the duplicate message
was logged. -/
def register_method (s : RpcServer) (name : String) (handler : Handler) :
    RpcServer × Bool :=
  ({ s with methods := alistInsert s.methods name handler },
   (alistLookup s.methods name).isSome)

/-- The client registry: connection to subscription map. -/
abbrev ClientsMap := List (Conn × List (NotifyEvent × Option Nat))

/-- RpcServer::add_client: insert the connection with an empty subscription
map (overwriting any existing entry, as HashMap insert does). -/
def add_client (clients : ClientsMap) (addr : Conn) : ClientsMap :=
  alistInsert clients addr []

/-- RpcServer::remove_client: HashMap remove of the connection; the debug
log reports whether an entry was deleted. Returns the new state and that
flag. -/
def remove_client (clients : ClientsMap) (addr : Conn) : ClientsMap × Bool :=
  (alistRemove clients addr, (alistLookup clients addr).isSome)

/-- RpcServer::subscribe_client_to: error with ClientNotRegistered when the
connection is absent (state untouched); otherwise insert/overwrite the
(event to id) entry in its subscription map. -/
def subscribe_client_to (clients : ClientsMap) (addr : Conn)
    (ev : NotifyEvent) (id : Option Nat) : Except RpcError Unit × ClientsMap :=
  match alistLookup clients addr with
  | none => (.error .ClientNotRegistered, clients)
  | some subs => (.ok (), alistInsert clients addr (alistInsert subs ev id))

/-- RpcServer::unsubscribe_client_from: error with ClientNotRegistered when
the connection is absent (state untouched); otherwise remove the event entry
from its subscription map (absence of the entry is not an error). -/
def unsubscribe_client_from (clients : ClientsMap) (addr : Conn)
    (ev : NotifyEvent) : Except RpcError Unit × ClientsMap :=
  match alistLookup clients addr with
  | none => (.error .ClientNotRegistered, clients)
  | some subs => (.ok (), alistInsert clients addr (alistRemove subs ev))

/-- Serialization of EventResult: the object with the event kind and the
payload. -/
def eventResultJson (notify : NotifyEvent) (value : Json) : Json :=
  .obj [("event", .str notify), ("value", value)]

/-- A notification handed to a spawned delivery task: the target connection
and the message sent to it. -/
structure Delivery where
  target : Conn
  message : Json

/-- The Notification Envelope built in notify_clients for one subscriber. -/
def notificationEnvelope (id : Option Nat) (notify : NotifyEvent) (value : Json) : Json :=
  .obj [("jsonrpc", .str JSON_RPC_VERSION),
        ("id", optIdJson id),
        ("result", eventResultJson notify value)]

/-- RpcServer::notify_clients: walk the client registry and, for each
connection whose subscription map contains the event kind, spawn a delivery
of the Notification Envelope built with that connection's captured id.
The registry is only read; the function always returns Ok. The embedding
returns the list of spawned deliveries, the Result, and the (unchanged)
registry state. -/
def notify_clients (clients : ClientsMap) (notify : NotifyEvent) (value : Json) :
    List Delivery × Except RpcError Unit × ClientsMap :=
  (clients.filterMap (fun entry =>
      match alistLookup entry.2 notify with
      | some id => some ⟨entry.1, notificationEnvelope id notify value⟩
      | none => none),
   .ok (), clients)

/-- The deliveries of a broadcast aimed at one given connection. -/
def deliveriesTo (ds : List Delivery) (c : Conn) : List Delivery :=
  ds.filter (fun d => d.target = c)

/-- Address as the mining gateway observes it (Address from xelis_common is
not under src/): normal-form flag, network flag, and opaque public-key
material extracted on success. -/
structure Address where
  is_normal : Bool
  is_mainnet : Bool
  pubkey : Nat
deriving DecidableEq, Repr

/-- The outcome of the getwork_endpoint admission gate. Each rejection
constructor is one BadRequest/NotFound branch of the source; Accepted
carries what is handed to the getwork server (public key and worker name). -/
inductive GetworkOutcome where
  | MiningDisabled : GetworkOutcome
  | WorkerNameTooLong : GetworkOutcome
  | InvalidAddress : GetworkOutcome
  | AddressNotNormal : GetworkOutcome
  | NetworkMismatch : GetworkOutcome
  | Accepted : Nat → String → GetworkOutcome
deriving DecidableEq, Repr

/-- getwork_endpoint admission logic. Address::from_string (from
xelis_common, outside src/) is abstracted as its outcome function. In the
source the first reject is the absent getwork server (NotFound), then
worker byte-length over 32, then address parse failure, then non-normal
form, then network-flag mismatch; otherwise the miner is admitted with the
address public key and the worker name. -/
def getwork_endpoint (getwork_configured : Bool)
    (parseAddress : String → Option Address) (node_is_mainnet : Bool)
    (addr worker : String) : GetworkOutcome :=
  if !getwork_configured then .MiningDisabled
  else if worker.utf8ByteSize > 32 then .WorkerNameTooLong
  else
    match parseAddress addr with
    | none => .InvalidAddress
    | some address =>
      if !address.is_normal then .AddressNotNormal
      else if address.is_mainnet != node_is_mainnet then .NetworkMismatch
      else .Accepted address.pubkey worker

/-- Modelled from the spec: a concrete stand-in for Address::from_string of
xelis_common (not under src/), used only to instantiate witnesses. The spec
needs the string "invalid" to fail to parse and representative valid
addresses of each class (normal mainnet, non-normal mainnet, normal
testnet). -/
def specParseAddress : String → Option Address
  | "xel_mainnet_normal" => some ⟨true, true, 1⟩
  | "xel_mainnet_integrated" => some ⟨false, true, 2⟩
  | "xel_testnet_normal" => some ⟨true, false, 3⟩
  | _ => none

end XelisRpc

namespace XelisRpc

/-! ### Association-list lemmas (HashMap semantics) -/

theorem alistLookup_insert_self {α β : Type} [DecidableEq α]
    (m : List (α × β)) (k : α) (v : β) :
    alistLookup (alistInsert m k v) k = some v := by
  induction m with
  | nil => simp [alistInsert, alistLookup]
  | cons hd tl ih =>
    obtain ⟨k0, v0⟩ := hd
    by_cases h : k0 = k <;> simp [alistInsert, alistLookup, h, ih]

theorem alistLookup_insert_ne {α β : Type} [DecidableEq α]
    (m : List (α × β)) (k k2 : α) (v : β) (h : k2 ≠ k) :
    alistLookup (alistInsert m k v) k2 = alistLookup m k2 := by
  induction m with
  | nil =>
    have hk : k ≠ k2 := fun e => h e.symm
    simp [alistInsert, alistLookup, hk]
  | cons hd tl ih =>
    obtain ⟨k0, v0⟩ := hd
    by_cases h0 : k0 = k
    · have hk : k ≠ k2 := fun e => h e.symm
      have hk02 : k0 ≠ k2 := fun e => h (e.symm.trans h0)
      simp [alistInsert, alistLookup, h0, hk, hk02]
    · by_cases h2 : k0 = k2 <;> simp [alistInsert, alistLookup, h0, h2, h, ih]

theorem alistLookup_remove_ne {α β : Type} [DecidableEq α]
    (m : List (α × β)) (k k2 : α) (h : k2 ≠ k) :
    alistLookup (alistRemove m k) k2 = alistLookup m k2 := by
  induction m with
  | nil => simp [alistRemove]
  | cons hd tl ih =>
    obtain ⟨k0, v0⟩ := hd
    by_cases h0 : k0 = k
    · have hk : k ≠ k2 := fun e => h e.symm
      simp [alistRemove, alistLookup, h0, hk]
    · by_cases h2 : k0 = k2 <;> simp [alistRemove, alistLookup, h0, h2, h, ih]

theorem alistLookup_eq_none_of_not_mem {α β : Type} [DecidableEq α]
    (m : List (α × β)) (k : α) (h : k ∉ m.map Prod.fst) :
    alistLookup m k = none := by
  induction m with
  | nil => simp [alistLookup]
  | cons hd tl ih =>
    obtain ⟨k0, v0⟩ := hd
    simp only [List.map_cons, List.mem_cons, not_or] at h
    have hk : k0 ≠ k := fun e => h.1 e.symm
    simp [alistLookup, hk, ih h.2]

theorem alistLookup_remove_self {α β : Type} [DecidableEq α]
    (m : List (α × β)) (k : α) (hnd : (m.map Prod.fst).Nodup) :
    alistLookup (alistRemove m k) k = none := by
  induction m with
  | nil => simp [alistRemove, alistLookup]
  | cons hd tl ih =>
    obtain ⟨k0, v0⟩ := hd
    simp only [List.map_cons, List.nodup_cons] at hnd
    by_cases h0 : k0 = k
    · subst h0
      simp [alistRemove, alistLookup_eq_none_of_not_mem tl k0 hnd.1]
    · simp [alistRemove, alistLookup, h0, ih hnd.2]

theorem alistRemove_absent {α β : Type} [DecidableEq α]
    (m : List (α × β)) (k : α) (h : alistLookup m k = none) :
    alistRemove m k = m := by
  induction m with
  | nil => simp [alistRemove]
  | cons hd tl ih =>
    obtain ⟨k0, v0⟩ := hd
    by_cases h0 : k0 = k
    · simp [alistLookup, h0] at h
    · simp only [alistLookup, if_neg h0] at h
      simp [alistRemove, h0, ih h]

theorem mem_keys_alistInsert {α β : Type} [DecidableEq α]
    (m : List (α × β)) (k a : α) (v : β)
    (h : a ∈ (alistInsert m k v).map Prod.fst) :
    a ∈ m.map Prod.fst ∨ a = k := by
  induction m with
  | nil =>
    simp only [alistInsert, List.map_cons, List.map_nil, List.mem_singleton] at h
    exact Or.inr h
  | cons hd tl ih =>
    obtain ⟨k0, v0⟩ := hd
    by_cases h0 : k0 = k
    · simp only [alistInsert, if_pos h0, List.map_cons, List.mem_cons] at h
      rcases h with h | h
      · exact Or.inr h
      · exact Or.inl (List.mem_cons_of_mem _ h)
    · simp only [alistInsert, if_neg h0, List.map_cons, List.mem_cons] at h
      rcases h with h | h
      · exact Or.inl (by simp [h])
      · rcases ih h with h2 | h2
        · exact Or.inl (List.mem_cons_of_mem _ h2)
        · exact Or.inr h2

theorem nodup_keys_alistInsert {α β : Type} [DecidableEq α]
    (m : List (α × β)) (k : α) (v : β) (hnd : (m.map Prod.fst).Nodup) :
    ((alistInsert m k v).map Prod.fst).Nodup := by
  induction m with
  | nil => simp [alistInsert]
  | cons hd tl ih =>
    obtain ⟨k0, v0⟩ := hd
    simp only [List.map_cons, List.nodup_cons] at hnd
    by_cases h0 : k0 = k
    · subst h0
      simpa [alistInsert] using hnd
    · simp only [alistInsert, if_neg h0, List.map_cons, List.nodup_cons]
      refine ⟨fun hmem => ?_, ih hnd.2⟩
      rcases mem_keys_alistInsert tl k k0 v hmem with h | h
      · exact hnd.1 h
      · exact h0 h

end XelisRpc

namespace XelisRpc

/-! ### Broadcast delivery lemmas -/

theorem deliveriesTo_notify_of_absent (m : ClientsMap) (c : Conn)
    (e : NotifyEvent) (v : Json) (h : alistLookup m c = none) :
    deliveriesTo (notify_clients m e v).1 c = [] := by
  induction m with
  | nil => simp [notify_clients, deliveriesTo]
  | cons hd tl ih =>
    obtain ⟨c0, subs0⟩ := hd
    by_cases h0 : c0 = c
    · simp [alistLookup, h0] at h
    · simp only [alistLookup, if_neg h0] at h
      have htl := ih h
      simp only [notify_clients, List.filterMap_cons, deliveriesTo] at htl ⊢
      cases hs : alistLookup subs0 e with
      | none => simpa [hs] using htl
      | some id => simpa [hs, List.filter_cons, h0] using htl

theorem deliveriesTo_notify_of_subscribed (m : ClientsMap)
    (hnd : (m.map Prod.fst).Nodup) (c : Conn)
    (subs : List (NotifyEvent × Option Nat)) (h : alistLookup m c = some subs)
    (e : NotifyEvent) (v : Json) :
    deliveriesTo (notify_clients m e v).1 c =
      match alistLookup subs e with
      | some id => [⟨c, notificationEnvelope id e v⟩]
      | none => [] := by
  induction m with
  | nil => simp [alistLookup] at h
  | cons hd tl ih =>
    obtain ⟨c0, subs0⟩ := hd
    simp only [List.map_cons, List.nodup_cons] at hnd
    by_cases h0 : c0 = c
    · subst h0
      have h2 : subs0 = subs := by simpa [alistLookup] using h
      subst h2
      have htl := deliveriesTo_notify_of_absent tl c0 e v
        (alistLookup_eq_none_of_not_mem tl c0 hnd.1)
      simp only [notify_clients, deliveriesTo] at htl
      cases hs : alistLookup subs0 e with
      | none =>
        simp only [notify_clients, deliveriesTo, List.filterMap_cons, hs]
        exact htl
      | some id =>
        simp only [notify_clients, deliveriesTo, List.filterMap_cons, hs, List.filter_cons]
        simp [htl]
    · simp only [alistLookup, if_neg h0] at h
      have htl := ih hnd.2 h
      simp only [notify_clients, deliveriesTo] at htl
      cases hs : alistLookup subs0 e with
      | none =>
        simp only [notify_clients, deliveriesTo, List.filterMap_cons, hs]
        exact htl
      | some id =>
        simp only [notify_clients, deliveriesTo, List.filterMap_cons, hs, List.filter_cons]
        simp [h0, htl]

end XelisRpc

namespace XelisRpc

/-! ### Helper definitions for specific claims -/

/-- A distinguishable concrete handler (returns 1). -/
def handlerOne : Handler := fun _ => .ok (.num 1)

/-- A second distinguishable concrete handler (returns 2). -/
def handlerTwo : Handler := fun _ => .ok (.num 2)

/-- Follows the spec words: the closed error taxonomy named by the spec
(parse failure, malformed request, unknown method, invalid/unexpected
parameters, invalid protocol version); everything outside it is the generic
internal-error class. -/
def specErrorTaxonomy : RpcError → Bool
  | .ParseBodyError => true
  | .InvalidRequest => true
  | .InvalidVersion => true
  | .MethodNotFound _ => true
  | .InvalidParams _ => true
  | .UnexpectedParams => true
  | _ => false

/-! ### Claim theorems -/

/-- C1: after registering a connection and subscribing it to event kind E
with id 7, broadcasting E with payload P spawns exactly one delivery to that
connection, whose message is the Notification Envelope with id 7 and result
field pairing the event kind with the payload; broadcasting a different
event kind E2 spawns no delivery to that connection. -/
theorem C1_subscribe_broadcast (m : ClientsMap) (hnd : (m.map Prod.fst).Nodup)
    (c : Conn) (E E2 : NotifyEvent) (hne : E2 ≠ E) (P : Json) :
    deliveriesTo (notify_clients (subscribe_client_to (add_client m c) c E (some 7)).2 E P).1 c
      = [⟨c, notificationEnvelope (some 7) E P⟩] ∧
    notificationEnvelope (some 7) E P
      = Json.obj [("jsonrpc", Json.str "2.0"), ("id", Json.num 7),
                  ("result", Json.obj [("event", Json.str E), ("value", P)])] ∧
    deliveriesTo (notify_clients (subscribe_client_to (add_client m c) c E (some 7)).2 E2 P).1 c
      = [] := by
  have h1 : alistLookup (add_client m c) c = some [] := alistLookup_insert_self m c []
  have hm2 : (subscribe_client_to (add_client m c) c E (some 7)).2
      = alistInsert (add_client m c) c [(E, some 7)] := by
    simp [subscribe_client_to, h1, alistInsert]
  have hnd1 : ((add_client m c).map Prod.fst).Nodup := nodup_keys_alistInsert m c [] hnd
  have hnd2 : ((alistInsert (add_client m c) c [(E, some 7)]).map Prod.fst).Nodup :=
    nodup_keys_alistInsert _ c _ hnd1
  have hl : alistLookup (alistInsert (add_client m c) c [(E, some 7)]) c
      = some [(E, some 7)] := alistLookup_insert_self _ c _
  refine ⟨?_, rfl, ?_⟩
  · rw [hm2]
    have hd := deliveriesTo_notify_of_subscribed _ hnd2 c _ hl E P
    simpa [alistLookup] using hd
  · rw [hm2]
    have hd := deliveriesTo_notify_of_subscribed _ hnd2 c _ hl E2 P
    have hEne : E ≠ E2 := fun hEq => hne hEq.symm
    simpa [alistLookup, hEne] using hd

/-- Witness for C1: empty initial registry, connection 0, events block/tx. -/
theorem C1_subscribe_broadcast_witness :
    (([] : ClientsMap).map Prod.fst).Nodup ∧
    ("tx" : NotifyEvent) ≠ "block" ∧
    (deliveriesTo (notify_clients
        (subscribe_client_to (add_client ([] : ClientsMap) 0) 0 "block" (some 7)).2
        "block" Json.null).1 0
      = [⟨0, notificationEnvelope (some 7) "block" Json.null⟩] ∧
    notificationEnvelope (some 7) "block" Json.null
      = Json.obj [("jsonrpc", Json.str "2.0"), ("id", Json.num 7),
                  ("result", Json.obj [("event", Json.str "block"), ("value", Json.null)])] ∧
    deliveriesTo (notify_clients
        (subscribe_client_to (add_client ([] : ClientsMap) 0) 0 "block" (some 7)).2
        "tx" Json.null).1 0 = []) :=
  ⟨List.nodup_nil, by decide,
   C1_subscribe_broadcast [] List.nodup_nil 0 "block" "tx" (by decide) Json.null⟩

/-- C2 counterexample: registering a second handler under an existing name
does not keep the originally registered handler; it stores the new one
(HashMap insert replaces the value). -/
theorem C2_counterexample :
    alistLookup (register_method
        (register_method (⟨[], []⟩ : RpcServer) "get_info" handlerOne).1
        "get_info" handlerTwo).1.methods "get_info" = some handlerTwo ∧
    ¬ alistLookup (register_method
        (register_method (⟨[], []⟩ : RpcServer) "get_info" handlerOne).1
        "get_info" handlerTwo).1.methods "get_info" = some handlerOne := by
  refine ⟨rfl, fun h => ?_⟩
  have h2 : handlerTwo = handlerOne := Option.some.inj h
  have h3 : (Except.ok (Json.num 2) : Except RpcError Json) = Except.ok (Json.num 1) :=
    congrFun h2 Json.null
  injection h3 with h4
  injection h4 with h5
  exact absurd h5 (by decide)

/-- C2 amended: registering a second handler under an already-present name
replaces the stored handler with the new one, the duplicate is reported
(the duplicate flag is set, the error is logged and startup continues), and
every other name keeps its binding. -/
theorem C2_amended_replacement (s : RpcServer) (name : String)
    (h1 h2 : Handler) (hdup : alistLookup s.methods name = some h1) :
    (register_method s name h2).2 = true ∧
    alistLookup (register_method s name h2).1.methods name = some h2 ∧
    ∀ n2, n2 ≠ name →
      alistLookup (register_method s name h2).1.methods n2 = alistLookup s.methods n2 := by
  refine ⟨by simp [register_method, hdup], ?_, fun n2 hn => ?_⟩
  · exact alistLookup_insert_self s.methods name h2
  · exact alistLookup_insert_ne s.methods name n2 h2 hn

/-- Witness for the amended C2 at a concrete one-method registry. -/
theorem C2_amended_witness :
    alistLookup (RpcServer.mk [("m", handlerOne)] []).methods "m" = some handlerOne ∧
    (register_method ⟨[("m", handlerOne)], []⟩ "m" handlerTwo).2 = true ∧
    alistLookup (register_method (⟨[("m", handlerOne)], []⟩ : RpcServer)
        "m" handlerTwo).1.methods "m" = some handlerTwo :=
  ⟨rfl, (C2_amended_replacement ⟨[("m", handlerOne)], []⟩ "m" handlerOne handlerTwo rfl).1,
   (C2_amended_replacement ⟨[("m", handlerOne)], []⟩ "m" handlerOne handlerTwo rfl).2.1⟩

/-- C3 counterexample: malformed request (InvalidRequest) and invalid
protocol version (InvalidVersion) are distinct failure kinds of the claimed
taxonomy yet share the numeric code -32600, so the mapping is not
one-to-one. -/
theorem C3_counterexample :
    RpcError.InvalidRequest ≠ RpcError.InvalidVersion ∧
    RpcError.get_code RpcError.InvalidRequest = RpcError.get_code RpcError.InvalidVersion ∧
    RpcError.get_code RpcError.InvalidVersion = -32600 := by
  decide

/-- C3 amended: the code table assigns -32700 to parse failure, -32600 to
both malformed request and invalid protocol version (the one collision),
-32601 to unknown method, -32602 to invalid/unexpected parameters, and
collapses every failure kind outside the taxonomy to the generic internal
error code -32603, which no taxonomy kind uses. -/
theorem C3_amended_codes :
    RpcError.get_code .ParseBodyError = -32700 ∧
    RpcError.get_code .InvalidRequest = -32600 ∧
    RpcError.get_code .InvalidVersion = -32600 ∧
    (∀ m, RpcError.get_code (.MethodNotFound m) = -32601) ∧
    (∀ m, RpcError.get_code (.InvalidParams m) = -32602) ∧
    RpcError.get_code .UnexpectedParams = -32602 ∧
    (∀ e, specErrorTaxonomy e = false → RpcError.get_code e = -32603) ∧
    (∀ e, specErrorTaxonomy e = true → RpcError.get_code e ≠ -32603) := by
  refine ⟨rfl, rfl, rfl, fun m => rfl, fun m => rfl, rfl, fun e he => ?_, fun e he => ?_⟩
  · cases e <;> simp_all [specErrorTaxonomy, RpcError.get_code]
  · cases e <;> simp_all [specErrorTaxonomy, RpcError.get_code]

/-- Witness for the amended C3 at concrete failure kinds. -/
theorem C3_amended_witness :
    specErrorTaxonomy RpcError.NoP2p = false ∧
    RpcError.get_code RpcError.NoP2p = -32603 ∧
    specErrorTaxonomy RpcError.ParseBodyError = true ∧
    RpcError.get_code RpcError.ParseBodyError ≠ -32603 :=
  ⟨rfl, C3_amended_codes.2.2.2.2.2.2.1 RpcError.NoP2p rfl, rfl,
   C3_amended_codes.2.2.2.2.2.2.2 RpcError.ParseBodyError rfl⟩

end XelisRpc

namespace XelisRpc

/-- C4: with the mining subsystem configured, admission short-circuits in
order worker-name length, address parse, normal form, network flag, each
with its distinct rejection; a valid normal address on the matching network
with a 32-byte worker name is accepted with the address public key; with no
mining subsystem, every attempt is rejected with MiningDisabled before any
check. -/
theorem C4_admission (parse : String → Option Address) (net : Bool)
    (addr worker : String) :
    getwork_endpoint false parse net addr worker = .MiningDisabled ∧
    (worker.utf8ByteSize = 33 →
      getwork_endpoint true parse net addr worker = .WorkerNameTooLong) ∧
    (worker.utf8ByteSize ≤ 32 → parse addr = none →
      getwork_endpoint true parse net addr worker = .InvalidAddress) ∧
    (∀ a, worker.utf8ByteSize ≤ 32 → parse addr = some a → a.is_normal = false →
      getwork_endpoint true parse net addr worker = .AddressNotNormal) ∧
    (∀ a, worker.utf8ByteSize ≤ 32 → parse addr = some a → a.is_normal = true →
      a.is_mainnet ≠ net →
      getwork_endpoint true parse net addr worker = .NetworkMismatch) ∧
    (∀ a, worker.utf8ByteSize = 32 → parse addr = some a → a.is_normal = true →
      a.is_mainnet = net →
      getwork_endpoint true parse net addr worker = .Accepted a.pubkey worker) := by
  refine ⟨rfl, fun h => ?_, fun h hp => ?_, fun a h hp hn => ?_,
          fun a h hp hn hm => ?_, fun a h hp hn hm => ?_⟩
  · simp [getwork_endpoint, h]
  · simp [getwork_endpoint, Nat.not_lt.mpr h, hp]
  · simp [getwork_endpoint, Nat.not_lt.mpr h, hp, hn]
  · simp [getwork_endpoint, Nat.not_lt.mpr h, hp, hn, hm]
  · simp [getwork_endpoint, Nat.not_lt.mpr (Nat.le_of_eq h), hp, hn, hm]

/-- Witness for C4 with the spec-modelled address parser: each admission
outcome at concrete inputs (33- and 32-byte worker names). -/
theorem C4_admission_witness :
    getwork_endpoint false specParseAddress true "xel_mainnet_normal"
      "aaaaaaaaaaaaaaaaaaaaaaaaaaaaaaaa" = .MiningDisabled ∧
    ("aaaaaaaaaaaaaaaaaaaaaaaaaaaaaaaaa" : String).utf8ByteSize = 33 ∧
    getwork_endpoint true specParseAddress true "xel_mainnet_normal"
      "aaaaaaaaaaaaaaaaaaaaaaaaaaaaaaaaa" = .WorkerNameTooLong ∧
    specParseAddress "invalid" = none ∧
    getwork_endpoint true specParseAddress true "invalid" "worker"
      = .InvalidAddress ∧
    getwork_endpoint true specParseAddress true "xel_mainnet_integrated" "worker"
      = .AddressNotNormal ∧
    getwork_endpoint true specParseAddress false "xel_mainnet_normal" "worker"
      = .NetworkMismatch ∧
    ("aaaaaaaaaaaaaaaaaaaaaaaaaaaaaaaa" : String).utf8ByteSize = 32 ∧
    getwork_endpoint true specParseAddress true "xel_mainnet_normal"
      "aaaaaaaaaaaaaaaaaaaaaaaaaaaaaaaa" = .Accepted 1 "aaaaaaaaaaaaaaaaaaaaaaaaaaaaaaaa" :=
  ⟨(C4_admission specParseAddress true "xel_mainnet_normal" _).1,
   by decide,
   (C4_admission specParseAddress true "xel_mainnet_normal" _).2.1 (by decide),
   rfl,
   (C4_admission specParseAddress true "invalid" "worker").2.2.1 (by decide) rfl,
   (C4_admission specParseAddress true "xel_mainnet_integrated" "worker").2.2.2.1
     ⟨false, true, 2⟩ (by decide) rfl rfl,
   (C4_admission specParseAddress false "xel_mainnet_normal" "worker").2.2.2.2.1
     ⟨true, true, 1⟩ (by decide) rfl rfl (by decide),
   by decide,
   (C4_admission specParseAddress true "xel_mainnet_normal" _).2.2.2.2.2
     ⟨true, true, 1⟩ (by decide) rfl rfl rfl⟩

/-- C5: a structurally parsed request whose jsonrpc field differs from
"2.0" yields an InvalidVersion error (code -32600) echoing the parsed id
(rendered null in the envelope when absent), a failed structural parse
yields ParseBodyError with a null id, and a version-mismatched request
yields the same error for every server state, so it never reaches method
lookup or a handler. -/
theorem C5_version_check (r : RpcRequest) (h : r.jsonrpc ≠ JSON_RPC_VERSION) :
    parse_request (some r) = .error ⟨r.id, .InvalidVersion⟩ ∧
    (RpcResponseError.mk r.id .InvalidVersion).get_id = optIdJson r.id ∧
    RpcError.get_code .InvalidVersion = -32600 ∧
    parse_request none = .error ⟨none, .ParseBodyError⟩ ∧
    ∀ s : RpcServer, json_rpc s (some r) = .error ⟨r.id, .InvalidVersion⟩ := by
  have hp : parse_request (some r) = .error ⟨r.id, .InvalidVersion⟩ := by
    simp [parse_request, h]
  refine ⟨hp, ?_, rfl, rfl, fun s => ?_⟩
  · rcases hr : r.id with _ | i <;> simp [RpcResponseError.get_id, optIdJson, hr]
  · simp [json_rpc, hp]

/-- Witness for C5 at a concrete version-mismatched request. -/
theorem C5_version_check_witness :
    (RpcRequest.mk "1.0" (some 5) "foo" none).jsonrpc ≠ JSON_RPC_VERSION ∧
    json_rpc ⟨[], []⟩ (some (RpcRequest.mk "1.0" (some 5) "foo" none))
      = .error ⟨some 5, .InvalidVersion⟩ :=
  ⟨by decide,
   (C5_version_check ⟨"1.0", some 5, "foo", none⟩ (by decide)).2.2.2.2 ⟨[], []⟩⟩

/-- C6: executing a well-formed request whose method is absent from the
registry yields an error envelope with the MethodNotFound code -32601,
echoing the request id, whose message embeds the requested method name. -/
theorem C6_method_not_found (s : RpcServer) (r : RpcRequest)
    (h : alistLookup s.methods r.method = none) :
    execute_method s r = .error ⟨r.id, .MethodNotFound r.method⟩ ∧
    RpcError.get_code (.MethodNotFound r.method) = -32601 ∧
    RpcError.toMessage (.MethodNotFound r.method)
      = "Method \x27" ++ r.method ++ "\x27 in request was not found" ∧
    List.IsInfix r.method.data (RpcError.toMessage (.MethodNotFound r.method)).data ∧
    RpcResponseError.to_json ⟨r.id, .MethodNotFound r.method⟩
      = Json.obj [("jsonrpc", Json.str "2.0"), ("id", optIdJson r.id),
                  ("error", Json.obj [("code", Json.num (-32601)),
                    ("message", Json.str ("Method \x27" ++ r.method
                      ++ "\x27 in request was not found"))])] := by
  refine ⟨by simp [execute_method, h], rfl, rfl, ?_, ?_⟩
  · refine ⟨"Method \x27".data, "\x27 in request was not found".data, ?_⟩
    simp [RpcError.toMessage]
  · rcases hr : r.id with _ | i <;>
      simp [RpcResponseError.to_json, RpcResponseError.get_id, RpcError.get_code,
            RpcError.toMessage, optIdJson, hr, JSON_RPC_VERSION]

/-- Witness for C6 at a concrete empty registry and request. -/
theorem C6_method_not_found_witness :
    alistLookup (RpcServer.mk [] []).methods "get_info" = none ∧
    execute_method ⟨[], []⟩ ⟨"2.0", some 1, "get_info", none⟩
      = .error ⟨some 1, .MethodNotFound "get_info"⟩ :=
  ⟨rfl, (C6_method_not_found ⟨[], []⟩ ⟨"2.0", some 1, "get_info", none⟩ rfl).1⟩

/-- C7: subscribe and unsubscribe on an unregistered connection both return
ClientNotRegistered and leave the registry unchanged; on a registered
connection subscribe inserts/overwrites the (event, id) entry and
unsubscribe removes the entry, absence of the entry not being an error. -/
theorem C7_registry_guard (m : ClientsMap) (c : Conn) (e : NotifyEvent)
    (id : Option Nat) :
    (alistLookup m c = none →
      subscribe_client_to m c e id = (.error .ClientNotRegistered, m) ∧
      unsubscribe_client_from m c e = (.error .ClientNotRegistered, m)) ∧
    (∀ subs, alistLookup m c = some subs →
      subscribe_client_to m c e id = (.ok (), alistInsert m c (alistInsert subs e id)) ∧
      alistLookup (alistInsert subs e id) e = some id ∧
      unsubscribe_client_from m c e = (.ok (), alistInsert m c (alistRemove subs e)) ∧
      (alistLookup subs e = none → alistRemove subs e = subs) ∧
      ((subs.map Prod.fst).Nodup → alistLookup (alistRemove subs e) e = none)) := by
  constructor
  · intro h
    exact ⟨by simp [subscribe_client_to, h], by simp [unsubscribe_client_from, h]⟩
  · intro subs h
    exact ⟨by simp [subscribe_client_to, h], alistLookup_insert_self subs e id,
           by simp [unsubscribe_client_from, h], alistRemove_absent subs e,
           alistLookup_remove_self subs e⟩

/-- Witness for C7: an unregistered connection is refused and a registered
one gets its entry inserted. -/
theorem C7_registry_guard_witness :
    alistLookup ([] : ClientsMap) 0 = none ∧
    subscribe_client_to [] 0 "block" (some 1) = (.error .ClientNotRegistered, []) ∧
    unsubscribe_client_from [] 0 "block" = (.error .ClientNotRegistered, []) ∧
    alistLookup ([(0, [])] : ClientsMap) 0 = some [] ∧
    subscribe_client_to [(0, [])] 0 "block" (some 1)
      = (.ok (), [(0, [("block", some 1)])]) :=
  ⟨rfl, ((C7_registry_guard [] 0 "block" (some 1)).1 rfl).1,
   ((C7_registry_guard [] 0 "block" (some 1)).1 rfl).2, rfl,
   ((C7_registry_guard [(0, [])] 0 "block" (some 1)).2 [] rfl).1⟩

/-- C8: deregistering a connection removes it with all its subscriptions,
so a subsequent broadcast of any event kind spawns no delivery to it;
deregistering an absent connection leaves the registry unchanged and does
not fail (the deleted flag is merely false). -/
theorem C8_deregister (m : ClientsMap) (hnd : (m.map Prod.fst).Nodup) (c : Conn) :
    alistLookup (remove_client m c).1 c = none ∧
    (∀ e v, deliveriesTo (notify_clients (remove_client m c).1 e v).1 c = []) ∧
    (alistLookup m c = none → remove_client m c = (m, false)) := by
  have h1 : alistLookup (alistRemove m c) c = none := alistLookup_remove_self m c hnd
  refine ⟨h1, fun e v => deliveriesTo_notify_of_absent _ c e v h1, fun h => ?_⟩
  simp [remove_client, alistRemove_absent m c h, h]

/-- Witness for C8: removing a subscribed connection silences it; removing
from the empty registry is a no-op. -/
theorem C8_deregister_witness :
    (([(0, [("block", some 7)])] : ClientsMap).map Prod.fst).Nodup ∧
    alistLookup (remove_client [(0, [("block", some 7)])] 0).1 0 = none ∧
    deliveriesTo (notify_clients (remove_client [(0, [("block", some 7)])] 0).1
      "block" Json.null).1 0 = [] ∧
    remove_client ([] : ClientsMap) 0 = ([], false) :=
  ⟨by simp,
   (C8_deregister [(0, [("block", some 7)])] (by simp) 0).1,
   (C8_deregister [(0, [("block", some 7)])] (by simp) 0).2.1 "block" Json.null,
   (C8_deregister [] (by simp) 0).2.2 rfl⟩

/-- C9: registering a connection maps it to the empty subscription set,
overwriting any existing set (registration is not idempotent with respect
to subscriptions), and leaves every other connection's entry unchanged. -/
theorem C9_register_empty (m : ClientsMap) (c : Conn) :
    alistLookup (add_client m c) c = some [] ∧
    (∀ subs, alistLookup m c = some subs → alistLookup (add_client m c) c = some []) ∧
    (∀ c2, c2 ≠ c → alistLookup (add_client m c) c2 = alistLookup m c2) :=
  ⟨alistLookup_insert_self m c [], fun _ _ => alistLookup_insert_self m c [],
   fun c2 h => alistLookup_insert_ne m c c2 [] h⟩

/-- Witness for C9: re-registering a subscribed connection wipes its
subscription set while another connection is untouched. -/
theorem C9_register_empty_witness :
    alistLookup ([(0, [("block", some 7)]), (1, [("tx", none)])] : ClientsMap) 0
      = some [("block", some 7)] ∧
    alistLookup (add_client [(0, [("block", some 7)]), (1, [("tx", none)])] 0) 0
      = some [] ∧
    (1 : Conn) ≠ 0 ∧
    alistLookup (add_client [(0, [("block", some 7)]), (1, [("tx", none)])] 0) 1
      = alistLookup ([(0, [("block", some 7)]), (1, [("tx", none)])] : ClientsMap) 1 :=
  ⟨rfl,
   (C9_register_empty [(0, [("block", some 7)]), (1, [("tx", none)])] 0).2.1
     [("block", some 7)] rfl,
   by decide,
   (C9_register_empty [(0, [("block", some 7)]), (1, [("tx", none)])] 0).2.2 1
     (by decide)⟩

/-- C10: broadcast only reads the client registry: the registry after the
call is the one before it, and the call returns Ok to the event producer
whatever the spawned deliveries do. -/
theorem C10_notify_frame (m : ClientsMap) (e : NotifyEvent) (v : Json) :
    (notify_clients m e v).2.1 = Except.ok () ∧ (notify_clients m e v).2.2 = m :=
  ⟨rfl, rfl⟩

end XelisRpc
